import Mathlib

/-!
Shallow embedding of the MACEMD repository's restart/checkpoint reconciliation,
batch dispatch, hook scheduling and QM-validation logic, together with proofs
of the spec's claims about them.

Sources embedded:
- `src/run_mace.py` (`run_dyn`, `process_structure`, `create_run_cp2k`,
  `create_print_md_snapshot`, `create_time_tracker`, `main`)
- `src/NaiMLeSS/naimless/md/mace_md/mace_md.py` and
  `src/NaiMLeSS/naimless/md/mace_md.py` (`restart_md`, `run_md`,
  `create_run_qm`, `main`)
- `src/NaiMLeSS/naimless/main.py` (`md_parallel_batch`)

External collaborators (ASE's trajectory reader, the MACE calculator, the CP2K
binary, `multiprocessing.Pool`) are modelled by their documented contracts:
the reader is an abstract parameter `read : List XYZLine → Option (List Frame)`
(returns `none` where the Python call raises), external evaluations are
`Except`-valued inputs, and `Pool.starmap` is modelled by `pool_starmap` below.
-/

namespace MACEMD

/-- One line of a `.trj.xyz` trajectory file. A frame is written as an
atom-count line, one comment line, then one line per atom; the repair
code in `run_dyn`/`restart_md` only ever inspects the first line's leading
integer and the total line count, so other lines are kept opaque. -/
inductive XYZLine where
  | countLine (n : Nat)
  | other (s : String)
deriving DecidableEq

/-- One parsed snapshot record: the physical state the reconciler seeds the
stepper with (`rst_atoms[-1].get_positions()`, `.get_velocities()`,
`.get_cell()`, `.get_pbc()`). Numeric entries are modelled as integers since
the reconciler only copies them. -/
structure Frame where
  positions : List (Int × Int × Int)
  velocities : List (Int × Int × Int)
  cell : List (Int × Int × Int)
  pbc : List Bool
deriving DecidableEq

/-- Outcome of the restart block: `fresh` = the outer `except` fired (or there
was nothing to resume) and the run starts over with the full step count;
`skip` = the job was found already complete; `resume` = run the remaining
steps from the last stored record's state. -/
inductive ReconcileResult where
  | fresh
  | skip
  | resume (remaining : Int) (seed : Frame)
deriving DecidableEq

/-- Whether and how `dyn.run` ends up being called for a job. -/
inductive StepperCall where
  | notInvoked
  | invoked (steps : Int) (seed : Option Frame)
deriving DecidableEq

/-- The corrupted-file repair in `run_dyn` (run_mace.py lines 86-97) and
`restart_md` (mace_md.py lines 155-167), identical in both:
`n_atoms = int(lines[0].split()[0])`, `nsnapshots = int(len(lines)/(n_atoms+2))`,
keep `lines[:nsnapshots*(n_atoms+2)]` and rewrite the file. Returns `none`
where the Python raises (empty file, or a first line without a leading
integer), which propagates to the enclosing `except`. -/
def repairTruncate (lines : List XYZLine) : Option (List XYZLine) :=
  match lines.head? with
  | some (XYZLine.countLine n) =>
      some (lines.take ((lines.length / (n + 2)) * (n + 2)))
  | _ => none

/-- The inner `try/except` around `read(trj_file, ":")`: on a read failure,
truncate-repair the file (rewriting it on disk) and re-read. Returns the
parse result (`none` if even the re-read, or the repair itself, raised: that
exception falls through to the outer `except`) together with the store as it
now stands on disk. -/
def read_with_repair (read : List XYZLine → Option (List Frame))
    (store : List XYZLine) : Option (List Frame) × List XYZLine :=
  match read store with
  | some rst => (some rst, store)
  | none =>
      match repairTruncate store with
      | none => (none, store)
      | some store' => (read store', store')

/-- The resume decision of `run_dyn` (run_mace.py lines 78, 98-109):
`max_snapshots = int(nsteps/stride) + 1`; at or above it the function
returns before `dyn.run`; below it, `nsteps -= nsnapshots*stride` and the
atoms are seeded from `rst_atoms[-1]` (an empty list raises IndexError
there, caught by the outer `except`, i.e. `fresh`). -/
def run_dyn_decision (rst : List Frame) (nsteps stride : Nat) : ReconcileResult :=
  if rst.length ≥ nsteps / stride + 1 then ReconcileResult.skip
  else
    match rst.getLast? with
    | some last => ReconcileResult.resume ((nsteps : Int) - rst.length * stride) last
    | none => ReconcileResult.fresh

/-- The resume decision of `restart_md` (both copies of mace_md.py, lines
168-180 resp. 182-194): `max_snapshots = nsteps // stride`; at or above it
`nsteps = 0`; below it `nsteps = nsteps - nsnapshots*stride` with the atoms
seeded from `rst_atoms[-1]` (empty list: IndexError, outer `except`, fresh). -/
def restart_md_decision (rst : List Frame) (nsteps stride : Nat) : ReconcileResult :=
  if rst.length ≥ nsteps / stride then ReconcileResult.skip
  else
    match rst.getLast? with
    | some last => ReconcileResult.resume ((nsteps : Int) - rst.length * stride) last
    | none => ReconcileResult.fresh

/-- The whole restart block of `run_dyn` (run_mace.py lines 79-111): read with
repair, then decide; any uncaught failure lands in the outer
`except Exception`, which logs and starts a new simulation (`fresh`).
Also returns the store as left on disk. -/
def run_dyn_reconcile (read : List XYZLine → Option (List Frame))
    (store : List XYZLine) (nsteps stride : Nat) :
    ReconcileResult × List XYZLine :=
  match read_with_repair read store with
  | (none, st) => (ReconcileResult.fresh, st)
  | (some rst, st) => (run_dyn_decision rst nsteps stride, st)

/-- The whole restart block of `restart_md` (mace_md.py lines 150-184),
structured exactly like `run_dyn_reconcile` but with restart_md's
completion threshold. -/
def restart_md_reconcile (read : List XYZLine → Option (List Frame))
    (store : List XYZLine) (nsteps stride : Nat) :
    ReconcileResult × List XYZLine :=
  match read_with_repair read store with
  | (none, st) => (ReconcileResult.fresh, st)
  | (some rst, st) => (restart_md_decision rst nsteps stride, st)

/-- `run_dyn` (run_mace.py lines 76-121) as far as the stepper is concerned:
on `skip` it returns before `dyn.run(steps=nsteps)` is reached; on `fresh`
it runs the full `nsteps` with no state override; on `resume` it runs the
reduced count seeded from the last record. Without `--restart` it always
runs the full count. -/
def run_dyn (read : List XYZLine → Option (List Frame)) (store : List XYZLine)
    (nsteps stride : Nat) (restart : Bool) : StepperCall :=
  if restart then
    match (run_dyn_reconcile read store nsteps stride).1 with
    | ReconcileResult.skip => StepperCall.notInvoked
    | ReconcileResult.fresh => StepperCall.invoked nsteps none
    | ReconcileResult.resume r last => StepperCall.invoked r (some last)
  else StepperCall.invoked nsteps none

/-- `run_md` (mace_md.py lines 186-205): unlike `run_dyn`, it always reaches
`dyn.run(steps=nsteps)` — the already-complete case sets `nsteps = 0` inside
`restart_md` and the stepper is still invoked with zero steps. -/
def run_md (read : List XYZLine → Option (List Frame)) (store : List XYZLine)
    (nsteps stride : Nat) (restart : Bool) : StepperCall :=
  if restart then
    match (restart_md_reconcile read store nsteps stride).1 with
    | ReconcileResult.skip => StepperCall.invoked 0 none
    | ReconcileResult.fresh => StepperCall.invoked nsteps none
    | ReconcileResult.resume r last => StepperCall.invoked r (some last)
  else StepperCall.invoked nsteps none

/-- The completion threshold of `run_dyn` (run_mace.py line 78). -/
def run_dyn_max_snapshots (nsteps stride : Nat) : Nat := nsteps / stride + 1

/-- The completion threshold of `restart_md` (mace_md.py line 169 resp. 183). -/
def restart_md_max_snapshots (nsteps stride : Nat) : Nat := nsteps / stride

/-- A concrete snapshot record used in concrete evaluations. -/
def testFrame : Frame :=
  { positions := [(0, 0, 0)]
    velocities := [(1, 0, 0)]
    cell := [(10, 0, 0), (0, 10, 0), (0, 0, 10)]
    pbc := [true, true, true] }

/-! ## Batch dispatch (run_mace.py `main`, naimless/main.py `md_parallel_batch`) -/

/-- Device lookup `device_names[i % ndevices]` (run_mace.py line 258,
naimless/main.py line 120). `none` marks the out-of-range case that Python
would raise on (it cannot occur when the pool is nonempty). -/
def assigned_device (devices : List String) (i : Nat) : Option String :=
  devices.get? (i % devices.length)

/-- The `args_list` comprehension: one `(structure_path, device)` pair per
job, built with `enumerate` over the batch. The remaining tuple components
(config, restart flag, job index) are common or derived and omitted. -/
def args_list {α : Type} (jobs : List α) (devices : List String) :
    List (α × Option String) :=
  jobs.enum.map fun p => (p.2, assigned_device devices p.1)

/-- First raised error among the per-task results of a pool map, in task
order; `multiprocessing.Pool.starmap` re-raises it from `MapResult.get`. -/
def firstError {ε β : Type} : List (Except ε β) → Option ε
  | [] => none
  | Except.error e :: _ => some e
  | Except.ok _ :: rs => firstError rs

/-- `torch.multiprocessing.Pool(...).starmap(f, xs)`: every task is executed
(an error in one task does not cancel its siblings), and then the call either
returns the list of results or re-raises the first task error; there is no
per-task outcome report in the error case. -/
def pool_starmap {α ε β : Type} (f : α → Except ε β) (xs : List α) :
    Except ε (List β) :=
  let rs := xs.map f
  match firstError rs with
  | some e => Except.error e
  | none => Except.ok (rs.filterMap Except.toOption)

/-- The batch call of run_mace.py `main` (lines 256-263) and naimless
`md_parallel_batch` (lines 119-123): build `args_list` with round-robin
devices, then `pool.starmap(worker, args_list)`. The worker
(`process_structure` resp. `run_md`) is an external effectful computation,
abstracted as an `Except`-valued function of its own argument tuple. -/
def md_parallel_batch {β : Type} (worker : String × Option String → Except String β)
    (jobs : List String) (devices : List String) : Except String (List β) :=
  pool_starmap worker (args_list jobs devices)

/-! ## Periodic hooks (`dyn.attach` order and firing) -/

/-- The callbacks attached to the ASE dynamics object. -/
inductive Hook where
  | qmValidation
  | snapshotWrite
  | timeLog
  | mdLogger
deriving DecidableEq

/-- Attach order in run_mace.py `process_structure` (lines 145-173):
time tracker first, then (if a cp2k block is configured) the CP2K validation
hook, then the snapshot writer, then the `MDLogger`, all at
`interval=config['md']['stride']`. -/
def run_mace_observers (cp2kConfigured : Bool) : List Hook :=
  [Hook.timeLog]
    ++ (if cp2kConfigured then [Hook.qmValidation] else [])
    ++ [Hook.snapshotWrite, Hook.mdLogger]

/-- Attach order in mace_md.py `main` (lines 256-265): the QM hook first when
configured (the code comments that it must run before the snapshot writer
because it adds info to `dyn.atoms`), then the snapshot writer, then the
time tracker, all at `interval=mace_config['stride']`. -/
def mace_md_observers (qmConfigured : Bool) : List Hook :=
  (if qmConfigured then [Hook.qmValidation] else [])
    ++ [Hook.snapshotWrite, Hook.timeLog]

/-- ASE `Dynamics.call_observers` for observers that all share one interval:
after a completed step whose number is a multiple of the interval, every
attached observer is called once, in attach order. -/
def call_observers (obs : List Hook) (stepno stride : Nat) : List Hook :=
  if stepno % stride = 0 then obs else []

/-- The per-step observer firings of `dyn.run(steps=nsteps)`: entry `k` of
the trace lists the hooks fired after completed step `k+1`. (ASE also fires
the observers once before the first step; that initial call does not affect
any per-interval ordering statement and is omitted.) -/
def dyn_run_trace (obs : List Hook) (stride nsteps : Nat) : List (List Hook) :=
  (List.range nsteps).map fun k => call_observers obs (k + 1) stride

/-- `dyn.run` when an observer may raise: steps are taken one at a time; on
each multiple of `stride` the hook runs, and an exception from it aborts the
loop (the remaining steps are never taken). Returns the number of completed
steps and the aborting error, if any. In run_mace.py the caller `run_dyn`
wraps this call in `try/except`, so the job survives but the run ends. -/
def dyn_run_loop (hook : Nat → Except String Unit) (stride : Nat) :
    Nat → Nat → Nat × Option String
  | 0, done => (done, none)
  | n + 1, done =>
      if (done + 1) % stride = 0 then
        match hook (done + 1) with
        | Except.error e => (done + 1, some e)
        | Except.ok _ => dyn_run_loop hook stride n (done + 1)
      else dyn_run_loop hook stride n (done + 1)

/-! ## QM validation hooks -/

/-- The persisted per-frame extra data the QM hooks mutate:
`dyn.atoms.info['E']` and `dyn.atoms.arrays['frc']` (absent before the first
QM call, hence `Option`). Energies and force components are rationals. -/
structure AtomsFrame where
  E : Option ℚ
  frc : Option (List ℚ)
deriving DecidableEq

/-- State touched by run_mace.py's CP2K hook: the atoms' extra data plus the
frames appended so far to the anomaly trajectory `cp2k_snaps.xyz`. -/
structure Cp2kState where
  atoms : AtomsFrame
  anomalyFile : List AtomsFrame
deriving DecidableEq

/-- The state at the first stride interval: no `info['E']`, no
`arrays['frc']`, empty anomaly trajectory. -/
def cp2kStart : Cp2kState :=
  { atoms := { E := none, frc := none }, anomalyFile := [] }

/-- `np.allclose(a, b, atol=atol)` with numpy's default relative tolerance
`rtol=1e-5`: all components must satisfy `|a-b| <= atol + rtol*|b|`. -/
def np_allclose (a b : List ℚ) (atol : ℚ) : Bool :=
  a.length == b.length &&
    (a.zip b).all fun p => decide (|p.1 - p.2| ≤ atol + 1 / 100000 * |p.2|)

/-- The mismatch condition of `create_run_cp2k` (run_mace.py lines 228-229):
`abs(mace_energy-cp2k_energy) > energy_tol` or
`not np.allclose(mace_forces, cp2k_forces, atol=force_tol)`. -/
def cp2k_mismatch (maceE cp2kE : ℚ) (maceF cp2kF : List ℚ) (etol ftol : ℚ) : Bool :=
  (etol < |maceE - cp2kE|) || !(np_allclose maceF cp2kF ftol)

/-- `run_cp2k` from `create_run_cp2k` (run_mace.py lines 201-236).
`cp2kCalc` is the outcome of the external CP2K invocation
(`subprocess.run(..., check=True)` plus the output-file reads): a raised
error there is not caught inside the hook and propagates (aborting
`dyn.run`). On success, a beyond-tolerance mismatch overwrites
`dyn.atoms.info['E']` / `dyn.atoms.arrays['frc']` with the CP2K values and
appends the (now overwritten) frame to `cp2k_snaps.xyz`; otherwise the state
is left untouched. -/
def run_cp2k (cp2kCalc : Except String (ℚ × List ℚ)) (maceE : ℚ) (maceF : List ℚ)
    (etol ftol : ℚ) (st : Cp2kState) : Except String Cp2kState :=
  match cp2kCalc with
  | Except.error e => Except.error e
  | Except.ok (cp2kE, cp2kF) =>
      if cp2k_mismatch maceE cp2kE maceF cp2kF etol ftol then
        Except.ok
          { atoms := { E := some cp2kE, frc := some cp2kF }
            anomalyFile := st.anomalyFile ++ [{ E := some cp2kE, frc := some cp2kF }] }
      else Except.ok st

/-- `run_qm` from `create_run_qm` (mace_md.py lines 225-243). The external QM
evaluation `qmCalc` is wrapped in `try/except`: on failure the hook logs and
substitutes `E = 0` and `F = np.zeros_like(atoms.get_forces())` (a zero
vector shaped like the ML forces `mlForces`). In both cases
`dyn.atoms.info['E']` and `dyn.atoms.arrays['frc']` are then assigned — there
is no tolerance comparison and no anomaly file, and the previous frame data
is overwritten unconditionally. -/
def run_qm (qmCalc : Except String (ℚ × List ℚ)) (mlForces : List ℚ)
    (_atoms : AtomsFrame) : AtomsFrame :=
  match qmCalc with
  | Except.ok (e, f) => { E := some e, frc := some f }
  | Except.error _ => { E := some 0, frc := some (mlForces.map fun _ => 0) }

/-! ## Helper lemmas -/

/-- Flattening a list of lists of one common length multiplies the lengths. -/
lemma flatten_length_uniform (frames : List (List XYZLine)) (f : Nat)
    (h : ∀ fr ∈ frames, fr.length = f) :
    frames.flatten.length = frames.length * f := by
  induction frames with
  | nil => simp
  | cons a l ih =>
      simp only [List.flatten_cons, List.length_append, List.length_cons]
      rw [h a (by simp), ih fun fr hfr => h fr (by simp [hfr])]
      ring

/-- When no pool task errored, every task contributes one entry to the
result list `starmap` returns. -/
lemma filterMap_toOption_length {ε β : Type} (rs : List (Except ε β))
    (h : firstError rs = none) :
    (rs.filterMap Except.toOption).length = rs.length := by
  induction rs with
  | nil => simp
  | cons r rs ih =>
      cases r with
      | error e => simp [firstError] at h
      | ok b =>
          simp only [firstError] at h
          simp [List.filterMap_cons, Except.toOption, ih h]

/-- A stepper loop whose hook never raises completes every requested step. -/
lemma dyn_run_loop_ok (stride : Nat) :
    ∀ n done, dyn_run_loop (fun _ => Except.ok ()) stride n done = (done + n, none) := by
  intro n
  induction n with
  | zero => intro done; simp [dyn_run_loop]
  | succ k ih =>
      intro done
      have harith : done + 1 + k = done + (k + 1) := by omega
      by_cases h : (done + 1) % stride = 0 <;>
        simp [dyn_run_loop, h, ih (done + 1), harith]

/-! ## Claims -/

/-- C2: a store of `k` complete frames of `N + 2` lines each (atom-count
line, comment line, `N` atom lines) followed by a partial frame of `m` extra
lines with `0 < m < N + 2` is repaired by keeping exactly the first
`k * (N + 2)` lines: the repaired store is exactly the `k` complete frames,
and the line-count frame count of the store is `k` (the partial frame is
discarded). Confirmed. -/
theorem C2_truncation_correct (frames : List (List XYZLine))
    (extraLines : List XYZLine) (N : Nat)
    (hlen : ∀ fr ∈ frames, fr.length = N + 2)
    (hhead : (frames.flatten ++ extraLines).head? = some (XYZLine.countLine N))
    (_hm0 : 0 < extraLines.length) (hmlt : extraLines.length < N + 2) :
    repairTruncate (frames.flatten ++ extraLines) = some frames.flatten
  ∧ frames.flatten.length = frames.length * (N + 2)
  ∧ (frames.flatten ++ extraLines).length / (N + 2) = frames.length := by
  have hflat : frames.flatten.length = frames.length * (N + 2) :=
    flatten_length_uniform frames (N + 2) hlen
  have htot : (frames.flatten ++ extraLines).length
      = (N + 2) * frames.length + extraLines.length := by
    simp only [List.length_append, hflat]
    ring
  have hdiv : (frames.flatten ++ extraLines).length / (N + 2) = frames.length := by
    rw [htot, Nat.mul_add_div (by omega), Nat.div_eq_of_lt hmlt]
    omega
  refine ⟨?_, hflat, hdiv⟩
  unfold repairTruncate
  rw [hhead]
  simp only [hdiv]
  rw [← hflat, List.take_left]

/-- Witness for C2 at a one-frame store (`N = 1`) with a one-line partial
trailing frame. -/
theorem C2_truncation_correct_witness :
    repairTruncate
        ([[XYZLine.countLine 1, XYZLine.other "c", XYZLine.other "H 0 0 0"]].flatten
          ++ [XYZLine.countLine 1])
      = some [[XYZLine.countLine 1, XYZLine.other "c", XYZLine.other "H 0 0 0"]].flatten
  ∧ [[XYZLine.countLine 1, XYZLine.other "c", XYZLine.other "H 0 0 0"]].flatten.length
      = [[XYZLine.countLine 1, XYZLine.other "c", XYZLine.other "H 0 0 0"]].length * (1 + 2)
  ∧ ([[XYZLine.countLine 1, XYZLine.other "c", XYZLine.other "H 0 0 0"]].flatten
      ++ [XYZLine.countLine 1]).length / (1 + 2)
      = [[XYZLine.countLine 1, XYZLine.other "c", XYZLine.other "H 0 0 0"]].length :=
  C2_truncation_correct
    [[XYZLine.countLine 1, XYZLine.other "c", XYZLine.other "H 0 0 0"]]
    [XYZLine.countLine 1] 1 (by decide) (by decide) (by decide) (by decide)

/-- C4: on a valid store (one the reader parses successfully) the
reconciler of `run_dyn` leaves the store untouched, and running it a second
time on the store it left behind returns the identical decision (same
remaining steps, same seed state) and store. Confirmed. -/
theorem C4_idempotent_reconcile (read : List XYZLine → Option (List Frame))
    (store : List XYZLine) (frames : List Frame) (T s : Nat)
    (h : read store = some frames) :
    (run_dyn_reconcile read store T s).2 = store
  ∧ run_dyn_reconcile read (run_dyn_reconcile read store T s).2 T s
      = run_dyn_reconcile read store T s := by
  constructor
  · simp [run_dyn_reconcile, read_with_repair, h]
  · simp [run_dyn_reconcile, read_with_repair, h]

/-- Witness for C4 on a concrete one-frame valid store. -/
theorem C4_idempotent_reconcile_witness :
    (run_dyn_reconcile (fun _ => some [testFrame]) [] 7 2).2 = []
  ∧ run_dyn_reconcile (fun _ => some [testFrame])
        (run_dyn_reconcile (fun _ => some [testFrame]) [] 7 2).2 7 2
      = run_dyn_reconcile (fun _ => some [testFrame]) [] 7 2 :=
  C4_idempotent_reconcile (fun _ => some [testFrame]) [] [testFrame] 7 2 rfl

/-- C6: the batch argument list has one entry per job, and the entry at
batch index `i` carries the device `device_pool[i mod P]` — a static
round-robin fixed before the pool executes anything. Confirmed. -/
theorem C6_round_robin {α : Type} (jobs : List α) (devices : List String)
    (i : Nat) (hi : i < jobs.length) (hp : 1 ≤ devices.length) :
    (args_list jobs devices).length = jobs.length
  ∧ (args_list jobs devices).get? i
      = some (jobs.get ⟨i, hi⟩, assigned_device devices i)
  ∧ assigned_device devices i
      = some (devices.get ⟨i % devices.length, Nat.mod_lt i hp⟩) := by
  refine ⟨by simp [args_list], ?_, ?_⟩
  · simp [args_list, List.get?_map, List.get?_enum, List.get?_eq_get hi]
  · exact List.get?_eq_get (Nat.mod_lt i hp)

/-- Witness for C6: three jobs on a two-device pool; job 2 lands on
device `2 mod 2 = 0`. -/
theorem C6_round_robin_witness :
    (args_list ["a", "b", "c"] ["cpu", "cuda"]).get? 2
      = some ("c", assigned_device ["cpu", "cuda"] 2) := by
  have h := (C6_round_robin ["a", "b", "c"] ["cpu", "cuda"] 2
      (by decide) (by decide)).2.1
  simpa using h

/-- C1 counterexample: with `T = 100`, `s = 10` and a readable store of
`n = 10` complete frames we have `n ≥ floor(T/s)`, yet `run_dyn` does not
skip: its threshold is `int(T/s) + 1 = 11`, so it invokes the stepper
(with `100 - 10*10 = 0` steps), refuting the claim's completion threshold
and its "not even a zero-step run" guarantee. -/
theorem C1_counterexample :
    (List.replicate 10 testFrame).length ≥ 100 / 10
  ∧ run_dyn (fun _ => some (List.replicate 10 testFrame)) [] 100 10 true
      ≠ StepperCall.notInvoked
  ∧ run_dyn (fun _ => some (List.replicate 10 testFrame)) [] 100 10 true
      = StepperCall.invoked 0 (some testFrame) := by
  refine ⟨by decide, by decide, by decide⟩

/-- C1 amended: for a readable store of `n` frames, `run_dyn` skips (and
the stepper is truly never invoked) exactly when `n ≥ floor(T/s) + 1`;
below that threshold it invokes the stepper with `T - n*s` steps (possibly
zero) seeded from the last record only. `restart_md` uses the claimed
threshold `floor(T/s)` and reports `remaining_steps = 0` at it, but its
caller `run_md` still invokes the stepper with zero steps. -/
theorem C1_amended (read : List XYZLine → Option (List Frame))
    (store : List XYZLine) (frames : List Frame) (T s : Nat)
    (h : read store = some frames) (_hs : 1 ≤ s) :
    (T / s + 1 ≤ frames.length →
      run_dyn read store T s true = StepperCall.notInvoked)
  ∧ (frames.length < T / s + 1 →
      run_dyn read store T s true
        = StepperCall.invoked ((T : Int) - frames.length * s) frames.getLast?)
  ∧ (T / s ≤ frames.length →
      run_md read store T s true = StepperCall.invoked 0 none)
  ∧ (frames.length < T / s →
      run_md read store T s true
        = StepperCall.invoked ((T : Int) - frames.length * s) frames.getLast?) := by
  have hrd : run_dyn_reconcile read store T s
      = (run_dyn_decision frames T s, store) := by
    simp [run_dyn_reconcile, read_with_repair, h]
  have hrm : restart_md_reconcile read store T s
      = (restart_md_decision frames T s, store) := by
    simp [restart_md_reconcile, read_with_repair, h]
  refine ⟨?_, ?_, ?_, ?_⟩
  · intro hn
    simp [run_dyn, hrd, run_dyn_decision, hn]
  · intro hn
    cases frames with
    | nil => simp [run_dyn, hrd, run_dyn_decision]
    | cons a l =>
        cases hlast : (a :: l).getLast? with
        | none => simp at hlast
        | some last =>
            simp only [List.length_cons] at hn
            have hcond : ¬ (T / s ≤ l.length) := by omega
            simp [run_dyn, hrd, run_dyn_decision, hlast, hcond]
  · intro hn
    simp [run_md, hrm, restart_md_decision, hn]
  · intro hn
    cases frames with
    | nil =>
        have hcond : ¬ (T / s ≤ 0) := by omega
        simp [run_md, hrm, restart_md_decision, hcond]
    | cons a l =>
        cases hlast : (a :: l).getLast? with
        | none => simp at hlast
        | some last =>
            simp only [List.length_cons] at hn
            have hcond : ¬ (T / s ≤ l.length + 1) := by omega
            simp [run_md, hrm, restart_md_decision, hlast, hcond]

/-- Witness for C1 amended: one stored frame, `T = 100`, `s = 10`:
both implementations resume with `90` steps seeded from that frame. -/
theorem C1_amended_witness :
    run_dyn (fun _ => some [testFrame]) [] 100 10 true
      = StepperCall.invoked 90 (some testFrame)
  ∧ run_md (fun _ => some [testFrame]) [] 100 10 true
      = StepperCall.invoked 90 (some testFrame) := by
  have h := C1_amended (fun _ => some [testFrame]) [] [testFrame] 100 10 rfl
    (by decide)
  refine ⟨?_, ?_⟩
  · have h2 := h.2.1 (by decide)
    simpa using h2
  · have h4 := h.2.2.2 (by decide)
    simpa using h4

/-- C3 counterexample: a store whose reader fails both before and after the
(successful) truncation repair. The claim says reconciliation must fail
fatally for the job; instead `run_dyn`'s outer `except` catches the error
and the job proceeds as a fresh full-length run — the stepper is invoked
with all 100 requested steps. -/
theorem C3_counterexample :
    repairTruncate [XYZLine.countLine 2] = some []
  ∧ (run_dyn_reconcile (fun _ => none) [XYZLine.countLine 2] 100 10).1
      = ReconcileResult.fresh
  ∧ run_dyn (fun _ => none) [XYZLine.countLine 2] 100 10 true
      ≠ StepperCall.notInvoked
  ∧ run_dyn (fun _ => none) [XYZLine.countLine 2] 100 10 true
      = StepperCall.invoked 100 none := by
  refine ⟨by decide, by decide, by decide, by decide⟩

/-- C3 amended: when the store cannot be read even after the truncation
repair, there is no fatal unrepairable-store error: both `run_dyn` and
`restart_md` catch the failure and fall back to a fresh simulation with the
full requested step count (other jobs are unaffected simply because nothing
propagates out of the worker). -/
theorem C3_amended (read : List XYZLine → Option (List Frame))
    (store : List XYZLine) (T s : Nat) (h1 : read store = none)
    (h2 : ∀ st', repairTruncate store = some st' → read st' = none) :
    (run_dyn_reconcile read store T s).1 = ReconcileResult.fresh
  ∧ run_dyn read store T s true = StepperCall.invoked T none
  ∧ (restart_md_reconcile read store T s).1 = ReconcileResult.fresh
  ∧ run_md read store T s true = StepperCall.invoked T none := by
  have hrw : ∃ st, read_with_repair read store = (none, st) := by
    unfold read_with_repair
    rw [h1]
    cases hrep : repairTruncate store with
    | none => exact ⟨store, rfl⟩
    | some st' => exact ⟨st', by simp [h2 st' hrep]⟩
  obtain ⟨st, hst⟩ := hrw
  refine ⟨?_, ?_, ?_, ?_⟩ <;>
    simp [run_dyn, run_md, run_dyn_reconcile, restart_md_reconcile, hst]

/-- Witness for C3 amended with an always-failing reader. -/
theorem C3_amended_witness :
    (run_dyn_reconcile (fun _ => none) [XYZLine.countLine 2] 5 1).1
      = ReconcileResult.fresh
  ∧ run_dyn (fun _ => none) [XYZLine.countLine 2] 5 1 true
      = StepperCall.invoked 5 none
  ∧ (restart_md_reconcile (fun _ => none) [XYZLine.countLine 2] 5 1).1
      = ReconcileResult.fresh
  ∧ run_md (fun _ => none) [XYZLine.countLine 2] 5 1 true
      = StepperCall.invoked 5 none :=
  C3_amended (fun _ => none) [XYZLine.countLine 2] 5 1 rfl fun _ _ => rfl

/-- C10 counterexample: at `nsteps = 50`, `stride = 5` the two completion
thresholds are `11` and `10` — not equal — and a store of 10 frames is
treated as still-running by `run_dyn` but as complete by `restart_md`. -/
theorem C10_counterexample :
    run_dyn_max_snapshots 50 5 = 11
  ∧ restart_md_max_snapshots 50 5 = 10
  ∧ run_dyn_max_snapshots 50 5 ≠ restart_md_max_snapshots 50 5
  ∧ run_dyn_decision (List.replicate 10 testFrame) 50 5 ≠ ReconcileResult.skip
  ∧ restart_md_decision (List.replicate 10 testFrame) 50 5
      = ReconcileResult.skip := by
  refine ⟨by decide, by decide, by decide, by decide, by decide⟩

/-- C10 amended: the two thresholds never agree — `run_dyn`'s is always
exactly one more than `restart_md`'s — and the two skip decisions coincide
for a store of `n` frames precisely when `n ≠ floor(nsteps/stride)`; at
`n = floor(nsteps/stride)` `restart_md` skips while `run_dyn` resumes. -/
theorem C10_amended (nsteps stride : Nat) (_hs : 1 ≤ stride)
    (frames : List Frame) :
    run_dyn_max_snapshots nsteps stride
      = restart_md_max_snapshots nsteps stride + 1
  ∧ ((run_dyn_decision frames nsteps stride = ReconcileResult.skip
        ↔ restart_md_decision frames nsteps stride = ReconcileResult.skip)
      ↔ frames.length ≠ nsteps / stride) := by
  refine ⟨rfl, ?_⟩
  have hrd : run_dyn_decision frames nsteps stride = ReconcileResult.skip
      ↔ nsteps / stride + 1 ≤ frames.length := by
    unfold run_dyn_decision
    by_cases hc : frames.length ≥ nsteps / stride + 1
    · simp [hc]
    · simp only [ge_iff_le, hc, if_false]
      cases frames.getLast? <;> simp [hc]
  have hrm : restart_md_decision frames nsteps stride = ReconcileResult.skip
      ↔ nsteps / stride ≤ frames.length := by
    unfold restart_md_decision
    by_cases hc : frames.length ≥ nsteps / stride
    · simp [hc]
    · simp only [ge_iff_le, hc, if_false]
      cases frames.getLast? <;> simp [hc]
  rw [hrd, hrm]
  omega

/-- Witness for C10 amended at `nsteps = 100`, `stride = 10` with a
9-frame store (both implementations agree: resume). -/
theorem C10_amended_witness :
    run_dyn_max_snapshots 100 10 = restart_md_max_snapshots 100 10 + 1
  ∧ ((run_dyn_decision (List.replicate 9 testFrame) 100 10
        = ReconcileResult.skip
      ↔ restart_md_decision (List.replicate 9 testFrame) 100 10
        = ReconcileResult.skip)
      ↔ (List.replicate 9 testFrame).length ≠ 100 / 10) :=
  C10_amended 100 10 (by decide) (List.replicate 9 testFrame)

/-- C5 counterexample: a two-job batch on one device whose first worker
raises. The batch-level `starmap` call re-raises that error instead of
returning a per-job outcome list, so no result is reported for every job
(and no Completed/Failed/Skipped taxonomy exists anywhere in the call). -/
theorem C5_counterexample :
    md_parallel_batch
        (fun p => if p.1 = "a" then Except.error "boom" else Except.ok (0 : Nat))
        ["a", "b"] ["cpu"]
      = Except.error "boom"
  ∧ (md_parallel_batch
        (fun p => if p.1 = "a" then Except.error "boom" else Except.ok (0 : Nat))
        ["a", "b"] ["cpu"]).isOk = false := ⟨rfl, rfl⟩

/-- C5 amended: every worker still runs on its own argument tuple alone
(entry `j` of the evaluated task results is the worker applied to job `j`'s
own args, so injecting a failure into one job cannot change any sibling's
evaluation), and when no worker raises the batch call returns one entry per
job; but when any worker raises, the batch call re-raises the first error
and reports no per-job outcomes at all. -/
theorem C5_amended {β : Type} (w : String × Option String → Except String β)
    (jobs : List String) (devices : List String) (j : Nat) :
    ((args_list jobs devices).map w).get? j
      = ((args_list jobs devices).get? j).map w
  ∧ (firstError ((args_list jobs devices).map w) = none →
      md_parallel_batch w jobs devices
        = Except.ok (((args_list jobs devices).map w).filterMap Except.toOption)
      ∧ (((args_list jobs devices).map w).filterMap Except.toOption).length
          = jobs.length)
  ∧ (∀ e, firstError ((args_list jobs devices).map w) = some e →
      md_parallel_batch w jobs devices = Except.error e) := by
  refine ⟨List.get?_map w _ j, ?_, ?_⟩
  · intro hok
    refine ⟨by simp [md_parallel_batch, pool_starmap, hok], ?_⟩
    rw [filterMap_toOption_length _ hok]
    simp [args_list]
  · intro e he
    simp [md_parallel_batch, pool_starmap, he]

/-- Witness for C5 amended: an all-succeeding three-job batch reports one
result per job. -/
theorem C5_amended_witness :
    md_parallel_batch (fun _ => (Except.ok 7 : Except String Nat))
        ["a", "b", "c"] ["cpu", "cuda"]
      = Except.ok
          (((args_list ["a", "b", "c"] ["cpu", "cuda"]).map
              (fun _ => (Except.ok 7 : Except String Nat))).filterMap Except.toOption)
  ∧ (((args_list ["a", "b", "c"] ["cpu", "cuda"]).map
        (fun _ => (Except.ok 7 : Except String Nat))).filterMap
        Except.toOption).length = 3 :=
  (C5_amended (fun _ => (Except.ok 7 : Except String Nat))
    ["a", "b", "c"] ["cpu", "cuda"] 0).2.1 rfl

/-- C7 counterexample: in run_mace.py's `process_structure` with a CP2K
block configured, the time-log hook is attached first, so at a stride
interval it fires before the QM-validation hook and before the snapshot
hook — not after them as the claim requires (the claimed order would have
the snapshot hook strictly before the time-log hook). -/
theorem C7_counterexample :
    (dyn_run_trace (run_mace_observers true) 1 1).get? 0
      = some [Hook.timeLog, Hook.qmValidation, Hook.snapshotWrite, Hook.mdLogger]
  ∧ ¬ ((run_mace_observers true).indexOf Hook.snapshotWrite
        < (run_mace_observers true).indexOf Hook.timeLog) := by
  refine ⟨by decide, by decide⟩

/-- C7 amended: within one job every attached hook fires exactly once per
stride interval, in attach order, at every interval of the run; in the
naimless pipeline that order is QM-validation (when configured), then
snapshot-write, then time-log, exactly as claimed, but in run_mace.py the
time-log hook is attached and fires first, then QM-validation, then
snapshot-write, then the MD logger. -/
theorem C7_amended (qmOn : Bool) (stride nsteps k : Nat)
    (hk : k < nsteps) (hs : (k + 1) % stride = 0) :
    (dyn_run_trace (mace_md_observers qmOn) stride nsteps).get? k
      = some (mace_md_observers qmOn)
  ∧ (dyn_run_trace (run_mace_observers qmOn) stride nsteps).get? k
      = some (run_mace_observers qmOn)
  ∧ mace_md_observers true = [Hook.qmValidation, Hook.snapshotWrite, Hook.timeLog]
  ∧ run_mace_observers true
      = [Hook.timeLog, Hook.qmValidation, Hook.snapshotWrite, Hook.mdLogger] := by
  have h1 : (List.range nsteps)[k]? = some k := List.getElem?_range hk
  refine ⟨?_, ?_, rfl, rfl⟩ <;>
    simp [dyn_run_trace, List.getElem?_map, h1, call_observers, hs]

/-- Witness for C7 amended: stride 2, 6 steps, the interval completed at
step 4 (trace index 3). -/
theorem C7_amended_witness :
    (dyn_run_trace (mace_md_observers true) 2 6).get? 3
      = some (mace_md_observers true)
  ∧ (dyn_run_trace (run_mace_observers true) 2 6).get? 3
      = some (run_mace_observers true)
  ∧ mace_md_observers true = [Hook.qmValidation, Hook.snapshotWrite, Hook.timeLog]
  ∧ run_mace_observers true
      = [Hook.timeLog, Hook.qmValidation, Hook.snapshotWrite, Hook.mdLogger] :=
  C7_amended true 2 6 3 (by decide) (by decide)

/-- C8 counterexample: naimless's QM hook performs no tolerance comparison
at all. With ML energy `10`, QM energy `21/2` (within an energy tolerance of
`1`) and identical forces, the frame data it leaves for the snapshot writer
carries the QM energy `21/2`, not the ML value `10` — the persisted values
do not remain the ML ones (and no anomaly trajectory exists in this hook). -/
theorem C8_counterexample :
    |(10 : ℚ) - 21 / 2| ≤ 1
  ∧ run_qm (Except.ok (21 / 2, [0])) [0] { E := some 10, frc := some [0] }
      = { E := some (21 / 2), frc := some [0] }
  ∧ some ((21 : ℚ) / 2) ≠ some (10 : ℚ) := by
  refine ⟨by norm_num [abs_le], rfl, by norm_num⟩

/-- C8 amended: in run_mace.py's CP2K hook the claim holds with the code's
actual comparison (`np.allclose` with numpy's default relative tolerance in
the force check): on a beyond-tolerance mismatch the frame's energy and
forces are set to the CP2K values and exactly one frame is appended to the
anomaly trajectory, and otherwise nothing is touched; in naimless's QM hook,
however, the frame's energy and forces are set to the QM values
unconditionally, with no tolerance check and no anomaly file. -/
theorem C8_amended (maceE cp2kE : ℚ) (maceF cp2kF : List ℚ) (etol ftol : ℚ)
    (st : Cp2kState) (qmE : ℚ) (qmF mlForces : List ℚ) (atomsSt : AtomsFrame) :
    (cp2k_mismatch maceE cp2kE maceF cp2kF etol ftol = true →
      run_cp2k (Except.ok (cp2kE, cp2kF)) maceE maceF etol ftol st
        = Except.ok
            ({ atoms := { E := some cp2kE, frc := some cp2kF }
               anomalyFile :=
                 st.anomalyFile ++ [{ E := some cp2kE, frc := some cp2kF }] } : Cp2kState)
      ∧ (st.anomalyFile
            ++ [({ E := some cp2kE, frc := some cp2kF } : AtomsFrame)]).length
          = st.anomalyFile.length + 1)
  ∧ (cp2k_mismatch maceE cp2kE maceF cp2kF etol ftol = false →
      run_cp2k (Except.ok (cp2kE, cp2kF)) maceE maceF etol ftol st
        = Except.ok st)
  ∧ run_qm (Except.ok (qmE, qmF)) mlForces atomsSt
      = { E := some qmE, frc := some qmF } := by
  refine ⟨?_, ?_, rfl⟩
  · intro hmis
    exact ⟨by simp [run_cp2k, hmis], by simp⟩
  · intro hmis
    simp [run_cp2k, hmis]

/-- Witness for C8 amended: ML energy 0 vs CP2K energy 10 with tolerance 1
is a mismatch (override plus one anomaly entry); the same hook leaves the
state alone at ML energy 10 vs CP2K energy 21/2. -/
theorem C8_amended_witness :
    run_cp2k (Except.ok (10, [])) 0 [] 1 1 cp2kStart
      = Except.ok
          ({ atoms := { E := some 10, frc := some [] }
             anomalyFile :=
               cp2kStart.anomalyFile ++ [{ E := some 10, frc := some [] }] } : Cp2kState)
  ∧ (cp2kStart.anomalyFile
        ++ [({ E := some (10 : ℚ), frc := some ([] : List ℚ) } : AtomsFrame)]).length
      = cp2kStart.anomalyFile.length + 1 := by
  have h := (C8_amended 0 10 [] [] 1 1 cp2kStart 0 [] []
      { E := none, frc := none }).1
  exact h (by norm_num [cp2k_mismatch, np_allclose])

/-- C9 counterexample: in run_mace.py the CP2K hook launches the external
program with `subprocess.run(..., check=True)` and catches nothing, so a QM
failure propagates out of the hook and aborts `dyn.run`: of 3 requested
steps at stride 1 only 1 completes and the error surfaces — the stepper
does not continue with the remaining steps, and no zero substitution
happens. -/
theorem C9_counterexample :
    run_cp2k (Except.error "cp2k failed") 0 [] 1 1 cp2kStart
      = Except.error "cp2k failed"
  ∧ dyn_run_loop (fun _ => Except.error "cp2k failed") 1 3 0
      = (1, some "cp2k failed")
  ∧ (1 : Nat) ≠ 3 := ⟨rfl, rfl, by decide⟩

/-- C9 amended: naimless's QM hook does implement the claimed fail-soft
policy — on QM failure it substitutes energy `0` and a zero force vector and
never raises, so the stepper completes every remaining step (a never-raising
hook finishes all `n` steps); run_mace.py's CP2K hook instead lets the
failure escape, which ends the MD run for that job (the error is only
logged around `dyn.run`, so the job itself survives). -/
theorem C9_amended (e : String) (mlForces : List ℚ) (atomsSt : AtomsFrame)
    (maceE : ℚ) (maceF : List ℚ) (etol ftol : ℚ) (cst : Cp2kState)
    (stride n done : Nat) :
    run_qm (Except.error e) mlForces atomsSt
      = { E := some 0, frc := some (mlForces.map fun _ => 0) }
  ∧ dyn_run_loop (fun _ => Except.ok ()) stride n done = (done + n, none)
  ∧ run_cp2k (Except.error e) maceE maceF etol ftol cst = Except.error e :=
  ⟨rfl, dyn_run_loop_ok stride n done, rfl⟩

end MACEMD
